import Mathlib

/-!
Shallow embedding of the GitHub-backed wiki client (the repository's wiki
single-page app) together with the activities cache helper, and proofs of the
specification claims about them.

Model conventions:
* JS strings (page bodies, editor content, paths, identifiers, status and
  error messages) are modelled as `List Nat` of UTF-16 code units; `jstr`
  converts a Lean string literal.
* `null`-able values are `Option`s; functions that the page calls over the
  network take the remote responses as explicit parameters (an environment
  record), and record the remote requests they would issue as a list of calls.
* Git tree listings have pairwise-distinct paths (a git tree cannot contain
  the same path twice), so the association map `pagesById` is modelled with
  last-write-wins insertion; theorems that depend on it carry the
  distinct-path hypothesis explicitly.
-/

namespace Wiki

/-- Code units of a Lean string literal (for BMP characters these coincide
with the UTF-16 code units JavaScript sees). -/
def jstr (s : String) : List Nat :=
  s.data.map Char.toNat

/-- ECMAScript white space and line terminator code points, as used by
`String.prototype.trim`. -/
def isJsWhite (c : Nat) : Bool :=
  c = 9 ∨ c = 10 ∨ c = 11 ∨ c = 12 ∨ c = 13 ∨ c = 32 ∨ c = 160 ∨ c = 5760 ∨
    (8192 ≤ c ∧ c ≤ 8202) ∨ c = 8232 ∨ c = 8233 ∨ c = 8239 ∨ c = 8287 ∨
    c = 12288 ∨ c = 65279

/-- `text.trim()`: strip leading and trailing white space. -/
def jsTrim (l : List Nat) : List Nat :=
  ((l.dropWhile isJsWhite).reverse.dropWhile isJsWhite).reverse

/-- Does `l` start with the pattern `pat`? -/
def startsWithSeq : List Nat → List Nat → Bool
  | [], _ => true
  | _ :: _, [] => false
  | p :: ps, a :: as => p = a && startsWithSeq ps as

/-- Does `l` contain `pat` as a contiguous subsequence
(`String.prototype.includes`)? -/
def containsSeq (pat : List Nat) : List Nat → Bool
  | [] => startsWithSeq pat []
  | a :: as => startsWithSeq pat (a :: as) || containsSeq pat as

/- ### Base64 (`btoa` / `atob`)

The wiki saves a page body with `content: btoa(newContent)` and decodes a
fetched blob with `atob(blob.content.replace(/\n/g, ''))`. -/

/-- The base64 alphabet: 6-bit value to code unit. -/
def sixToChar (v : Nat) : Nat :=
  if v < 26 then 65 + v
  else if v < 52 then 97 + (v - 26)
  else if v < 62 then 48 + (v - 52)
  else if v = 62 then 43
  else 47

/-- The base64 alphabet: code unit back to 6-bit value. -/
def charToSix (c : Nat) : Option Nat :=
  if 65 ≤ c ∧ c ≤ 90 then some (c - 65)
  else if 97 ≤ c ∧ c ≤ 122 then some (c - 97 + 26)
  else if 48 ≤ c ∧ c ≤ 57 then some (c - 48 + 52)
  else if c = 43 then some 62
  else if c = 47 then some 63
  else none

/-- Base64-encode a byte sequence, emitting `=` (code 61) padding, exactly as
`btoa` does once every code unit is known to fit in a byte. -/
def b64encodeBytes : List Nat → List Nat
  | [] => []
  | [a] => [sixToChar (a / 4), sixToChar (a % 4 * 16), 61, 61]
  | [a, b] => [sixToChar (a / 4), sixToChar (a % 4 * 16 + b / 16),
      sixToChar (b % 16 * 4), 61]
  | a :: b :: c :: rest =>
      sixToChar (a / 4) :: sixToChar (a % 4 * 16 + b / 16) ::
        sixToChar (b % 16 * 4 + c / 64) :: sixToChar (c % 64) ::
        b64encodeBytes rest

/-- Base64-decode to a byte sequence; `none` models the `InvalidCharacterError`
that `atob` throws on malformed input. -/
def b64decode : List Nat → Option (List Nat)
  | [] => some []
  | w :: x :: y :: z :: rest =>
      match charToSix w, charToSix x with
      | some w6, some x6 =>
          if z = 61 then
            if rest = [] then
              if y = 61 then some [w6 * 4 + x6 / 16]
              else
                match charToSix y with
                | some y6 => some [w6 * 4 + x6 / 16, x6 % 16 * 16 + y6 / 4]
                | none => none
            else none
          else
            match charToSix y, charToSix z with
            | some y6, some z6 =>
                match b64decode rest with
                | some tail =>
                    some ((w6 * 4 + x6 / 16) :: (x6 % 16 * 16 + y6 / 4) ::
                      (y6 % 4 * 64 + z6) :: tail)
                | none => none
            | _, _ => none
      | _, _ => none
  | _ => none

/-- `btoa(text)`: throws (`none`) when some code unit is outside Latin-1,
otherwise base64-encodes the code units as bytes. -/
def btoa (units : List Nat) : Option (List Nat) :=
  if units.all (fun c => c < 256) then some (b64encodeBytes units) else none

/-- `atob(text)`. -/
def atob (units : List Nat) : Option (List Nat) :=
  b64decode units

/-- `atob(content.replace(/\n/g, ''))` — the decode step of
`fetchPageContent` and `executeMove`. -/
def decodeBlobContent (b64 : List Nat) : Option (List Nat) :=
  atob (b64.filter (fun c => c ≠ 10))

/-- Save-then-fetch round trip of a page body: the `btoa` performed by
`saveEdit` followed by the `atob` performed by `fetchPageContent` on the
stored base64. -/
def saveFetchRoundTrip (text : List Nat) : Option (List Nat) :=
  (btoa text).bind decodeBlobContent

/- ### Page tree model (`loadWikiFromGitHub`) -/

/-- Strict lexicographic comparison of code-unit sequences; this is the
comparison `a.path.localeCompare(b.path) < 0` performs on the ASCII paths of
the content tree. -/
def listLt : List Nat → List Nat → Bool
  | [], [] => false
  | [], _ :: _ => true
  | _ :: _, [] => false
  | a :: as, b :: bs => if a < b then true else if b < a then false else listLt as bs

def listLt_asymm :
    ∀ a b : List Nat, listLt a b = true → listLt b a = false
  | [], [], h => by simp [listLt] at h
  | [], _ :: _, _ => rfl
  | _ :: _, [], h => by simp [listLt] at h
  | x :: xs, y :: ys, h => by
      unfold listLt at h ⊢
      rcases Nat.lt_trichotomy x y with hlt | heq | hgt
      · rw [if_neg (by omega), if_pos hlt]
      · subst heq
        rw [if_neg (by omega), if_neg (by omega)] at h ⊢
        exact listLt_asymm xs ys h
      · rw [if_neg (by omega), if_pos hgt] at h
        simp at h

def listLt_conn :
    ∀ a b : List Nat, listLt a b = false → listLt b a = false → a = b
  | [], [], _, _ => rfl
  | [], _ :: _, h, _ => by simp [listLt] at h
  | _ :: _, [], _, h => by simp [listLt] at h
  | x :: xs, y :: ys, h1, h2 => by
      unfold listLt at h1 h2
      rcases Nat.lt_trichotomy x y with hlt | heq | hgt
      · rw [if_pos hlt] at h1
        simp at h1
      · subst heq
        rw [if_neg (by omega), if_neg (by omega)] at h1 h2
        rw [listLt_conn xs ys h1 h2]
      · rw [if_pos hgt] at h2
        simp at h2

def listLt_trans :
    ∀ a b c : List Nat, listLt a b = true → listLt b c = true →
      listLt a c = true
  | [], [], _, h1, _ => by simp [listLt] at h1
  | [], _ :: _, [], _, h2 => by simp [listLt] at h2
  | [], _ :: _, _ :: _, _, _ => rfl
  | _ :: _, [], _, h1, _ => by simp [listLt] at h1
  | _ :: _, _ :: _, [], _, h2 => by simp [listLt] at h2
  | x :: xs, y :: ys, z :: zs, h1, h2 => by
      unfold listLt at h1 h2 ⊢
      rcases Nat.lt_trichotomy x y with hxy | hxy | hxy
      · rcases Nat.lt_trichotomy y z with hyz | hyz | hyz
        · rw [if_pos (by omega)]
        · subst hyz
          rw [if_pos hxy]
        · rw [if_neg (by omega), if_pos hyz] at h2
          simp at h2
      · subst hxy
        rw [if_neg (by omega), if_neg (by omega)] at h1
        rcases Nat.lt_trichotomy x z with hxz | hxz | hxz
        · rw [if_pos hxz]
        · subst hxz
          rw [if_neg (by omega), if_neg (by omega)] at h2 ⊢
          exact listLt_trans xs ys zs h1 h2
        · rw [if_neg (by omega), if_pos hxz] at h2
          simp at h2
      · rw [if_neg (by omega), if_pos hxy] at h1
        simp at h1

/-- One entry of the recursive git tree listing: a path and its blob sha. -/
structure TreeItem where
  path : List Nat
  sha : List Nat
deriving DecidableEq

/-- `CONTENT_PATH + '/'`. -/
def contentSlash : List Nat := jstr "content/"

/-- Does `l` end with the pattern `pat`? -/
def endsWithSeq (pat l : List Nat) : Bool :=
  startsWithSeq pat.reverse l.reverse

/-- The listing filter:
`item.path.startsWith(CONTENT_PATH + '/') && item.path.endsWith('.md')`. -/
def isWikiMd (e : TreeItem) : Bool :=
  startsWithSeq contentSlash e.path && endsWithSeq (jstr ".md") e.path

/-- `file.path.replace(CONTENT_PATH + '/', '').replace(/\.md$/, '')`.
On the paths selected by `isWikiMd` the first occurrence of `"content/"` is
the leading one, so replacing the first occurrence is dropping the prefix. -/
def stripPath (p : List Nat) : List Nat :=
  let p1 := if startsWithSeq contentSlash p then p.drop contentSlash.length else p
  if endsWithSeq (jstr ".md") p1 then p1.take (p1.length - 3) else p1

/-- `pageId.split('/')` (split on the `/` code unit, 47). -/
def splitSlash : List Nat → List (List Nat)
  | [] => [[]]
  | c :: rest =>
      if c = 47 then [] :: splitSlash rest
      else
        match splitSlash rest with
        | [] => [[c]]
        | seg :: segs => (c :: seg) :: segs

/-- `segments.join('/')`. -/
def joinSlash : List (List Nat) → List Nat
  | [] => []
  | [s] => s
  | s :: rest => s ++ 47 :: joinSlash rest

/-- `parts.length > 1 ? parts.slice(0, -1).join('/') : null` where
`parts = pageId.split('/')`. -/
def parentIdOf (pageId : List Nat) : Option (List Nat) :=
  let parts := splitSlash pageId
  if parts.length > 1 then some (joinSlash parts.dropLast) else none

/-- `parts[parts.length - 1]`. -/
def lastSegment (pageId : List Nat) : List Nat :=
  (splitSlash pageId).getLastD pageId

/-- The in-memory page record. -/
structure Page where
  id : List Nat
  title : List Nat
  markdown : Option (List Nat)
  sha : Option (List Nat)
  path : List Nat
  parentId : Option (List Nat)
  children : List (List Nat)
  loaded : Bool
deriving DecidableEq

/-- The page object `loadWikiFromGitHub` builds for one listing entry. -/
def makePage (e : TreeItem) : Page :=
  let pageId := stripPath e.path
  { id := pageId
    title := lastSegment pageId
    markdown := none
    sha := some e.sha
    path := e.path
    parentId := parentIdOf pageId
    children := []
    loaded := false }

/-- Association-map write with JavaScript object semantics: an existing key
keeps its position and gets the new value, a new key is appended. -/
def setPage (m : List (List Nat × Page)) (k : List Nat) (v : Page) :
    List (List Nat × Page) :=
  match m with
  | [] => [(k, v)]
  | (k', v') :: rest =>
      if k' = k then (k, v) :: rest else (k', v') :: setPage rest k v

/-- Association-map lookup (`pagesById[k]`). -/
def getPage (m : List (List Nat × Page)) (k : List Nat) : Option Page :=
  match m with
  | [] => none
  | (k', v) :: rest => if k' = k then some v else getPage rest k

/-- `pagesById[k].children.push(childId)`. -/
def addChild (m : List (List Nat × Page)) (k childId : List Nat) :
    List (List Nat × Page) :=
  m.map fun kv =>
    if kv.1 = k then (kv.1, { kv.2 with children := kv.2.children ++ [childId] })
    else kv

/-- The second `forEach` of `loadWikiFromGitHub`: attach each page to its
parent's child list when the parent exists, collect parentless pages as
roots — and silently skip pages whose parent identifier is absent. -/
def attachPages :
    List Page → List (List Nat × Page) × List (List Nat) →
      List (List Nat × Page) × List (List Nat)
  | [], acc => acc
  | pg :: rest, (m, roots) =>
      match pg.parentId with
      | some pid =>
          if (getPage m pid).isSome then
            attachPages rest (addChild m pid pg.id, roots)
          else
            attachPages rest (m, roots)
      | none => attachPages rest (m, roots ++ [pg.id])

/-- Order on listing entries used by
`.sort((a, b) => a.path.localeCompare(b.path))`, modelled as the
lexicographic code-unit order on the path strings. -/
def pathLe (a b : TreeItem) : Prop := listLt b.path a.path = false

/-- Strict version of the path order, for the uniqueness-of-sorting
argument. -/
def pathLt (a b : TreeItem) : Prop := listLt a.path b.path = true

instance : DecidableRel pathLe := fun a b =>
  inferInstanceAs (Decidable (listLt b.path a.path = false))

instance : IsTotal TreeItem pathLe := by
  constructor
  intro a b
  cases hab : listLt b.path a.path
  · exact Or.inl hab
  · exact Or.inr (listLt_asymm b.path a.path hab)

instance : IsTrans TreeItem pathLe := by
  constructor
  intro a b c h1 h2
  unfold pathLe at h1 h2 ⊢
  cases hca : listLt c.path a.path
  · rfl
  · exfalso
    cases hbc : listLt b.path c.path
    · have hbc2 : b.path = c.path := listLt_conn b.path c.path hbc h2
      rw [hbc2] at h1
      rw [h1] at hca
      simp at hca
    · have hba := listLt_trans b.path c.path a.path hbc hca
      rw [h1] at hba
      simp at hba

instance : IsAntisymm TreeItem pathLt := by
  constructor
  intro a b h1 h2
  exfalso
  unfold pathLt at h1 h2
  have hf := listLt_asymm a.path b.path h1
  rw [hf] at h2
  simp at h2

/-- Sort the filtered listing by path. -/
def sortEntries (l : List TreeItem) : List TreeItem :=
  List.insertionSort pathLe l

/-- The result of `loadWikiFromGitHub` (the `pages` array is recovered as the
values of `pagesById`, which coincides with it because git tree paths —
hence page identifiers — are pairwise distinct). -/
structure WikiData where
  pagesById : List (List Nat × Page)
  tree : List (List Nat)
deriving DecidableEq

/-- The `pages` array. -/
def WikiData.pages (w : WikiData) : List Page :=
  w.pagesById.map Prod.snd

/-- The first `forEach`: the page objects in sorted-listing order. -/
def basePages (items : List TreeItem) : List Page :=
  (sortEntries (items.filter isWikiMd)).map makePage

/-- The pure tree construction of `loadWikiFromGitHub`, taking the recursive
listing as input. -/
def buildWiki (items : List TreeItem) : WikiData :=
  let base := basePages items
  let m0 := base.foldl (fun m pg => setPage m pg.id pg) []
  let res := attachPages base (m0, [])
  { pagesById := res.1, tree := res.2 }

/-- Modelled from the spec's wording for the parent identifier: "all path
segments but the last joined by '/' (none for single-segment paths)". -/
def specParentId (pageId : List Nat) : Option (List Nat) :=
  match (splitSlash pageId).dropLast with
  | [] => none
  | segs => some (joinSlash segs)

/-- The identity-relevant projection of a `pagesById` entry: its key together
with the value's identifier and parent identifier. -/
def pageKey (kv : List Nat × Page) : List Nat × List Nat × Option (List Nat) :=
  (kv.1, kv.2.id, kv.2.parentId)

/-- Sample listing used to witness the tree-construction theorems. -/
def sampleItems : List TreeItem :=
  [⟨jstr "content/b.md", jstr "h2"⟩, ⟨jstr "content/a.md", jstr "h1"⟩,
    ⟨jstr "content/a/c.md", jstr "h3"⟩]

/- ### Activities cache (`getCachedActivities` / `setCachedActivities`) -/

/-- One cached entry: the payload and the `Date.now()` at cache-write time. -/
structure CacheEntry (α : Type) where
  data : α
  timestamp : Nat

/-- `setCachedActivities(data)` stores the payload with the current time. -/
def setCachedActivities {α : Type} (data : α) (now : Nat) : Option (CacheEntry α) :=
  some ⟨data, now⟩

/-- `getCachedActivities()`, with the stored cache entry and `Date.now()`
passed explicitly: serve the payload while
`(now - timestamp) / (1000 * 60 * 60) < 24`, otherwise treat the cache as
absent. -/
def getCachedActivities {α : Type} (cache : Option (CacheEntry α)) (now : Nat) :
    Option α :=
  match cache with
  | none => none
  | some e =>
      if (now - e.timestamp) / (1000 * 60 * 60) < 24 then some e.data else none

/- ### Draft store -/

/-- One saved draft: editor content, the sha observed at edit start, and the
`Date.now()` of the write. -/
structure DraftRec where
  content : List Nat
  baseSha : Option (List Nat)
  timestamp : Nat
deriving DecidableEq

/-- `clearDraft(pageId)`: parse the draft map, delete the key, store it
back. -/
def clearDraft (pageId : List Nat) (store : List (List Nat × DraftRec)) :
    List (List Nat × DraftRec) :=
  store.filter fun kv => kv.1 ≠ pageId

/- ### Generic association-map helpers for the remaining client-side maps -/

/-- JavaScript object write (used for `lastKnownRemoteSha[k] = v` and
`drafts[k] = v`): an existing key keeps its position, a new key is appended. -/
def setKey {α : Type} (m : List (List Nat × α)) (k : List Nat) (v : α) :
    List (List Nat × α) :=
  match m with
  | [] => [(k, v)]
  | (k', v') :: rest =>
      if k' = k then (k, v) :: rest else (k', v') :: setKey rest k v

/-- JavaScript object read (`m[k]`). -/
def getKey {α : Type} (m : List (List Nat × α)) (k : List Nat) : Option α :=
  match m with
  | [] => none
  | (k', v) :: rest => if k' = k then some v else getKey rest k

/- ### Edit-session application state -/

/-- The module-level mutable state of the wiki page that the modelled
operations read and write. -/
structure AppState where
  githubToken : Option (List Nat)
  pagesById : List (List Nat × Page)
  tree : List (List Nat)
  currentPage : Option (List Nat)
  originalMarkdown : List Nat
  editorContent : List Nat
  isEditMode : Bool
  isNewPage : Bool
  isMoveMode : Bool
  pageToMove : Option (List Nat)
  editStartSha : Option (List Nat)
  lastKnownRemoteSha : List (List Nat × List Nat)
  drafts : List (List Nat × DraftRec)
deriving DecidableEq

/-- The `'error'` status kind. -/
def errKind : List Nat := jstr "error"

/-- The `'success'` status kind. -/
def successKind : List Nat := jstr "success"

/-- A remote request the client would issue. -/
inductive RemoteCall
  | getContents (path : List Nat)
  | putFile (path : List Nat) (content : List Nat) (sha : Option (List Nat))
  | deleteFile (path : List Nat) (sha : List Nat)
  | findUniqueName (basePath : List Nat) (baseName : List Nat)
deriving DecidableEq

/-- `syncCurrentPageWithRemote`, with the result of the remote hash fetch
passed explicitly (`none` models a failed request, whose exception the
function catches and swallows).  Returns the new state together with the
warning status it shows, if any. -/
def syncCurrentPageWithRemote (st : AppState) (remoteSha : Option (List Nat)) :
    AppState × Option (List Nat) :=
  match st.currentPage, st.githubToken with
  | none, _ => (st, none)
  | _, none => (st, none)
  | some cp, some _ =>
      match remoteSha with
      | none => (st, none)
      | some rsha =>
          match getPage st.pagesById cp with
          | none => (st, none)
          | some page =>
              if getKey st.lastKnownRemoteSha cp ≠ some rsha
                  ∧ page.sha ≠ some rsha then
                ({ st with
                    lastKnownRemoteSha := setKey st.lastKnownRemoteSha cp rsha
                    pagesById :=
                      setPage st.pagesById cp { page with sha := some rsha } },
                  some (if st.isEditMode then
                    jstr "⚠️ This page was updated remotely while editing. Save will overwrite!"
                  else
                    jstr "⚠️ Page updated remotely. Cancel edit and reload to see changes."))
              else (st, none)

/-- Split a body into lines (on the newline code unit 10). -/
def splitLines : List Nat → List (List Nat)
  | [] => [[]]
  | c :: rest =>
      if c = 10 then [] :: splitLines rest
      else
        match splitLines rest with
        | [] => [[c]]
        | seg :: segs => (c :: seg) :: segs

/-- One line against `^#\s+(.+)$`: a `#`, at least one whitespace, then the
captured rest; when the rest is all whitespace the greedy `\s+` backtracks
and the capture is the line's last character. -/
def headingOfLine (line : List Nat) : Option (List Nat) :=
  match line with
  | 35 :: c :: rest =>
      if isJsWhite c then
        let body := (c :: rest).dropWhile isJsWhite
        if body = [] then
          if rest = [] then none else some [(c :: rest).getLastD c]
        else some body
      else none
  | _ => none

/-- `content.match(/^#\s+(.+)$/m)?.[1]`. -/
def headingTitle (content : List Nat) : Option (List Nat) :=
  (splitLines content).findSome? headingOfLine

/-- `content.match(...)?.[1] || fallbackId.split('/').pop()`. -/
def titleFor (content pageId : List Nat) : List Nat :=
  (headingTitle content).getD (lastSegment pageId)

/-- ASCII lower-casing, as `toLowerCase` acts on the slug characters. -/
def asciiLower (c : Nat) : Nat :=
  if 65 ≤ c ∧ c ≤ 90 then c + 32 else c

/-- Is `c` a lower-case letter or digit (the class `[a-z0-9]`)? -/
def isAlnumLower (c : Nat) : Bool :=
  (97 ≤ c ∧ c ≤ 122) ∨ (48 ≤ c ∧ c ≤ 57)

/-- Merge consecutive dashes (the `+` of `/[^a-z0-9]+/g`). -/
def collapseDashes : List Nat → List Nat
  | [] => []
  | [c] => [c]
  | a :: b :: rest =>
      if a = 45 ∧ b = 45 then collapseDashes (45 :: rest)
      else a :: collapseDashes (b :: rest)
termination_by l => l.length

/-- `.replace(/^-|-$/g, '')`. -/
def trimDashes (l : List Nat) : List Nat :=
  ((l.dropWhile fun c => c = 45).reverse.dropWhile fun c => c = 45).reverse

/-- Slug of a piece of text: lower-case it, replace runs outside `[a-z0-9]`
with `-`, strip boundary dashes. -/
def slugify (l : List Nat) : List Nat :=
  trimDashes (collapseDashes (l.map fun c =>
    if isAlnumLower (asciiLower c) then asciiLower c else 45))

/-- `generateFilename(content)`. -/
def generateFilename (content : List Nat) : List Nat :=
  match headingTitle content with
  | some t => slugify t
  | none =>
      let s := slugify ((jsTrim content).take 50)
      if s = [] then jstr "untitled" else s

/-- Remote responses consumed by one `saveEdit` run. -/
structure SaveEnv where
  /-- Result of the `githubAPI('/contents/' + filePath)` re-read before an
  update: the fresh sha, or the message of the error it threw. -/
  getShaResult : Except (List Nat) (List Nat)
  /-- `none`: the `PUT` succeeded; `some msg`: it threw `msg`. -/
  putResult : Option (List Nat)
  /-- The data returned by the `loadWikiFromGitHub()` rebuild after a
  successful write. -/
  freshWiki : WikiData
  /-- The collision-free filename `getUniqueFilename` finds for a new page. -/
  uniqueName : List Nat

/-- Outcome of a user-triggered operation: resulting state, the statuses it
showed in order, whether a `confirm` dialog was raised, the remote requests
it issued, and whether it died on an uncaught exception. -/
structure SaveResult where
  state : AppState
  statuses : List (List Nat × List Nat)
  promptShown : Bool
  calls : List RemoteCall
  crashed : Bool
deriving DecidableEq

/-- The message of the `InvalidCharacterError` that `btoa` throws on a
non-Latin-1 body. -/
def invalidCharMsg : List Nat :=
  jstr "InvalidCharacterError: The string to be encoded contains characters outside of the Latin1 range."

/-- The message of the `TypeError` thrown when the freshly rebuilt tree no
longer contains the page being patched. -/
def typeErrMsg : List Nat :=
  jstr "TypeError: Cannot set properties of undefined"

/-- The status string the `catch` of `saveEdit` shows: the conflict hint on
a 409, otherwise the generic failure text. -/
def saveErrorStatus (msg : List Nat) : List Nat :=
  if containsSeq (jstr "409") msg then
    jstr "⚠️ Save failed: Remote was updated. Cancel/stash this edit and refresh to get latest."
  else jstr "Failed to save: " ++ msg

/-- The catch-block outcome: show the status, keep the state. -/
def catchResult (st : AppState) (promptShown : Bool) (calls : List RemoteCall)
    (msg : List Nat) : SaveResult :=
  { state := st
    statuses := [(jstr "Saving to GitHub...", successKind),
      (saveErrorStatus msg, errKind)]
    promptShown := promptShown
    calls := calls
    crashed := false }

/-- The `try` block of `saveEdit` (everything after the confirm gate). -/
def saveEditBody (st : AppState) (newContent : List Nat) (env : SaveEnv)
    (promptShown : Bool) : SaveResult :=
  if st.isNewPage then
    let parentPath := match st.currentPage with
      | some cp => jstr "content/" ++ cp
      | none => jstr "content"
    let baseName := generateFilename newContent
    let newPageId := match st.currentPage with
      | some cp => cp ++ 47 :: env.uniqueName
      | none => env.uniqueName
    let filePath := jstr "content/" ++ newPageId ++ jstr ".md"
    let probe := RemoteCall.findUniqueName parentPath baseName
    match btoa newContent with
    | none => catchResult st promptShown [probe] invalidCharMsg
    | some enc =>
        match env.putResult with
        | some msg =>
            catchResult st promptShown
              [probe, RemoteCall.putFile filePath enc none] msg
        | none =>
            let wd := env.freshWiki
            let patched := match getPage wd.pagesById newPageId with
              | some pg =>
                  setPage wd.pagesById newPageId
                    { pg with
                        markdown := some newContent
                        loaded := true
                        sha := none
                        title := titleFor newContent newPageId }
              | none => wd.pagesById
            { state := { st with
                pagesById := patched
                tree := wd.tree
                currentPage := some newPageId
                originalMarkdown := newContent
                drafts := clearDraft newPageId st.drafts
                isNewPage := false }
              statuses := [(jstr "Saving to GitHub...", successKind),
                (jstr "Saved!", successKind)]
              promptShown := promptShown
              calls := [probe, RemoteCall.putFile filePath enc none]
              crashed := false }
  else
    let cpStr := match st.currentPage with
      | some cp => cp
      | none => jstr "null"
    let filePath := jstr "content/" ++ cpStr ++ jstr ".md"
    if newContent = st.originalMarkdown then
      { state := st
        statuses := [(jstr "Saving to GitHub...", successKind),
          (jstr "No changes to save", errKind)]
        promptShown := promptShown
        calls := []
        crashed := false }
    else
      let getCall := RemoteCall.getContents filePath
      match env.getShaResult with
      | .error msg => catchResult st promptShown [getCall] msg
      | .ok sha =>
          match btoa newContent with
          | none => catchResult st promptShown [getCall] invalidCharMsg
          | some enc =>
              match env.putResult with
              | some msg =>
                  catchResult st promptShown
                    [getCall, RemoteCall.putFile filePath enc (some sha)] msg
              | none =>
                  let wd := env.freshWiki
                  let calls := [getCall,
                    RemoteCall.putFile filePath enc (some sha)]
                  match getPage wd.pagesById cpStr with
                  | none =>
                      { state := { st with
                          pagesById := wd.pagesById
                          tree := wd.tree }
                        statuses := [(jstr "Saving to GitHub...", successKind),
                          (saveErrorStatus typeErrMsg, errKind)]
                        promptShown := promptShown
                        calls := calls
                        crashed := false }
                  | some pg =>
                      { state := { st with
                          pagesById := setPage wd.pagesById cpStr
                            { pg with
                                markdown := some newContent
                                loaded := true
                                sha := none
                                title := titleFor newContent cpStr }
                          tree := wd.tree
                          originalMarkdown := newContent
                          drafts := clearDraft cpStr st.drafts
                          isNewPage := false }
                        statuses := [(jstr "Saving to GitHub...", successKind),
                          (jstr "Saved!", successKind)]
                        promptShown := promptShown
                        calls := calls
                        crashed := false }

/-- `saveEdit`, with the user's answer to a raised confirm dialog and the
remote responses passed explicitly. -/
def saveEdit (st : AppState) (confirmAns : Bool) (env : SaveEnv) : SaveResult :=
  let newContent := st.editorContent
  if jsTrim newContent = [] then
    { state := st
      statuses := [(jstr "Page cannot be empty", errKind)]
      promptShown := false
      calls := []
      crashed := false }
  else
    match st.editStartSha with
    | none => saveEditBody st newContent env false
    | some h =>
        match st.currentPage.bind fun cp => getPage st.pagesById cp with
        | none =>
            { state := st, statuses := [], promptShown := false, calls := [],
              crashed := true }
        | some page =>
            if some h ≠ page.sha ∧ st.isNewPage = false then
              if confirmAns then saveEditBody st newContent env true
              else
                { state := st, statuses := [], promptShown := true,
                  calls := [], crashed := false }
            else saveEditBody st newContent env false

/-- `logout` (the session-terminating action, bound to the logout button
only): clears the token, the in-memory tree, the current page and the
persisted drafts. -/
def logout (st : AppState) : AppState :=
  { st with
      githubToken := none
      pagesById := []
      tree := []
      currentPage := none
      drafts := [] }

/-- Remote responses consumed by one `deletePage` run. -/
structure DeleteEnv where
  /-- The sha fetch of the file to delete, or the error it threw. -/
  getResult : Except (List Nat) (List Nat)
  /-- `none`: the `DELETE` succeeded; `some msg`: it threw `msg`. -/
  deleteResult : Option (List Nat)
  /-- The data returned by the `loadWikiFromGitHub()` rebuild. -/
  freshWiki : WikiData

/-- `deletePage`, with the confirm answer and remote responses explicit. -/
def deletePage (st : AppState) (confirmAns : Bool) (env : DeleteEnv) :
    SaveResult :=
  match st.currentPage with
  | none =>
      { state := st, statuses := [], promptShown := false, calls := [],
        crashed := true }
  | some cp =>
      match getPage st.pagesById cp with
      | none =>
          { state := st, statuses := [], promptShown := false, calls := [],
            crashed := true }
      | some page =>
          if page.children ≠ [] then
            { state := st
              statuses :=
                [(jstr "Cannot delete pages with children. Delete children first.",
                  errKind)]
              promptShown := false
              calls := []
              crashed := false }
          else if ¬confirmAns then
            { state := st, statuses := [], promptShown := true, calls := [],
              crashed := false }
          else
            let filePath := jstr "content/" ++ cp ++ jstr ".md"
            let getCall := RemoteCall.getContents filePath
            match env.getResult with
            | .error msg =>
                { state := st
                  statuses := [(jstr "Deleting page...", successKind),
                    (jstr "Failed to delete: " ++ msg, errKind)]
                  promptShown := true
                  calls := [getCall]
                  crashed := false }
            | .ok sha =>
                match env.deleteResult with
                | some msg =>
                    { state := st
                      statuses := [(jstr "Deleting page...", successKind),
                        (jstr "Failed to delete: " ++ msg, errKind)]
                      promptShown := true
                      calls := [getCall, RemoteCall.deleteFile filePath sha]
                      crashed := false }
                | none =>
                    let wd := env.freshWiki
                    let newPage := match page.parentId with
                      | some pid => pid
                      | none => wd.tree.headD (jstr "home")
                    let newCurrent :=
                      if (getPage wd.pagesById newPage).isSome then
                        some newPage
                      else none
                    { state := { st with
                        pagesById := wd.pagesById
                        tree := wd.tree
                        currentPage := newCurrent }
                      statuses := [(jstr "Deleting page...", successKind),
                        (jstr "Page deleted!", successKind)]
                      promptShown := true
                      calls := [getCall, RemoteCall.deleteFile filePath sha]
                      crashed := false }

/-- `startMoveMode`: returns the new state, the statuses shown, and whether
the handler died on an uncaught exception. -/
def startMoveMode (st : AppState) :
    AppState × List (List Nat × List Nat) × Bool :=
  match st.currentPage with
  | none => (st, [], true)
  | some cp =>
      match getPage st.pagesById cp with
      | none => (st, [], true)
      | some page =>
          if page.children ≠ [] then
            (st, [(jstr "Cannot move pages with children. Use Git.", errKind)],
              false)
          else
            ({ st with isMoveMode := true, pageToMove := some cp }, [], false)

/-- Is a remote call the content write (`PUT`)? -/
def isPutCall : RemoteCall → Bool
  | RemoteCall.putFile _ _ _ => true
  | _ => false

/-- A loaded home page used by the session-level witnesses. -/
def homePage : Page :=
  { id := jstr "home"
    title := jstr "Home"
    markdown := some (jstr "# Home")
    sha := some (jstr "sha1")
    path := jstr "content/home.md"
    parentId := none
    children := []
    loaded := true }

/-- A page that has a child, for the children-guard witness. -/
def parentPage : Page :=
  { id := jstr "a"
    title := jstr "a"
    markdown := some (jstr "# A")
    sha := some (jstr "sha2")
    path := jstr "content/a.md"
    parentId := none
    children := [jstr "a/b"]
    loaded := true }

/-- A live editing session on the home page. -/
def baseSession : AppState :=
  { githubToken := some (jstr "tok")
    pagesById := [(jstr "home", homePage), (jstr "a", parentPage)]
    tree := [jstr "home", jstr "a"]
    currentPage := some (jstr "home")
    originalMarkdown := jstr "# Home"
    editorContent := jstr "# Home v2"
    isEditMode := true
    isNewPage := false
    isMoveMode := false
    pageToMove := none
    editStartSha := some (jstr "sha1")
    lastKnownRemoteSha := []
    drafts := [] }

/-- The same session with a stale edit-start hash (the remote moved to
`sha1` after the edit began at `sha0`). -/
def staleSession : AppState :=
  { baseSession with editStartSha := some (jstr "sha0") }

/-- An environment in which every remote call succeeds. -/
def okEnv : SaveEnv :=
  { getShaResult := Except.ok (jstr "sha1")
    putResult := none
    freshWiki := { pagesById := [(jstr "home", homePage)], tree := [jstr "home"] }
    uniqueName := jstr "untitled" }

/-- An environment whose content fetch fails with an auth error. -/
def authFailEnv : SaveEnv :=
  { okEnv with getShaResult := Except.error (jstr "GitHub API error: 401") }

/-- An environment whose content fetch fails with a conflict. -/
def conflictEnv : SaveEnv :=
  { okEnv with getShaResult := Except.error (jstr "GitHub API error: 409") }

/-- A delete environment in which every remote call succeeds. -/
def okDeleteEnv : DeleteEnv :=
  { getResult := Except.ok (jstr "sha2")
    deleteResult := none
    freshWiki := { pagesById := [(jstr "home", homePage)], tree := [jstr "home"] } }

/-- Session whose current page has a child, for the children guard. -/
def parentSession : AppState :=
  { baseSession with currentPage := some (jstr "a") }

/- ### Theorems -/

theorem charToSix_sixToChar : ∀ v, v < 64 → charToSix (sixToChar v) = some v := by
  decide

theorem sixToChar_ne_61 (v : Nat) : sixToChar v ≠ 61 := by
  unfold sixToChar
  split <;> try omega
  split <;> try omega
  split <;> try omega
  split <;> omega

theorem sixToChar_ne_10 (v : Nat) : sixToChar v ≠ 10 := by
  unfold sixToChar
  split <;> try omega
  split <;> try omega
  split <;> try omega
  split <;> omega

theorem b64decode_encode :
    ∀ l : List Nat, (∀ x ∈ l, x < 256) →
      b64decode (b64encodeBytes l) = some l
  | [], _ => rfl
  | [a], h => by
      have ha : a < 256 := h a (by simp)
      have h1 : charToSix (sixToChar (a / 4)) = some (a / 4) :=
        charToSix_sixToChar _ (by omega)
      have h2 : charToSix (sixToChar (a % 4 * 16)) = some (a % 4 * 16) :=
        charToSix_sixToChar _ (by omega)
      simp only [b64encodeBytes, b64decode, h1, h2, if_pos rfl]
      have e1 : a / 4 * 4 + a % 4 * 16 / 16 = a := by omega
      rw [e1]
      simp
  | [a, b], h => by
      have ha : a < 256 := h a (by simp)
      have hb : b < 256 := h b (by simp)
      have h1 : charToSix (sixToChar (a / 4)) = some (a / 4) :=
        charToSix_sixToChar _ (by omega)
      have h2 : charToSix (sixToChar (a % 4 * 16 + b / 16)) =
          some (a % 4 * 16 + b / 16) :=
        charToSix_sixToChar _ (by omega)
      have h3 : charToSix (sixToChar (b % 16 * 4)) = some (b % 16 * 4) :=
        charToSix_sixToChar _ (by omega)
      simp only [b64encodeBytes, b64decode, h1, h2, h3, if_pos rfl,
        if_neg (sixToChar_ne_61 (b % 16 * 4))]
      have e1 : a / 4 * 4 + (a % 4 * 16 + b / 16) / 16 = a := by omega
      have e2 : (a % 4 * 16 + b / 16) % 16 * 16 + b % 16 * 4 / 4 = b := by omega
      rw [e1, e2]
      simp
  | a :: b :: c :: rest, h => by
      have ha : a < 256 := h a (by simp)
      have hb : b < 256 := h b (by simp)
      have hc : c < 256 := h c (by simp)
      have ih := b64decode_encode rest (fun x hx => h x (by simp [hx]))
      have h1 : charToSix (sixToChar (a / 4)) = some (a / 4) :=
        charToSix_sixToChar _ (by omega)
      have h2 : charToSix (sixToChar (a % 4 * 16 + b / 16)) =
          some (a % 4 * 16 + b / 16) :=
        charToSix_sixToChar _ (by omega)
      have h3 : charToSix (sixToChar (b % 16 * 4 + c / 64)) =
          some (b % 16 * 4 + c / 64) :=
        charToSix_sixToChar _ (by omega)
      have h4 : charToSix (sixToChar (c % 64)) = some (c % 64) :=
        charToSix_sixToChar _ (by omega)
      simp only [b64encodeBytes, b64decode, h1, h2, h3, h4,
        if_neg (sixToChar_ne_61 (c % 64)), ih]
      have e1 : a / 4 * 4 + (a % 4 * 16 + b / 16) / 16 = a := by omega
      have e2 : (a % 4 * 16 + b / 16) % 16 * 16 + (b % 16 * 4 + c / 64) / 4 = b := by
        omega
      have e3 : (b % 16 * 4 + c / 64) % 4 * 64 + c % 64 = c := by omega
      rw [e1, e2, e3]

theorem b64encode_no_newline :
    ∀ l : List Nat, ∀ x ∈ b64encodeBytes l, x ≠ 10
  | [], x, hx => by simp [b64encodeBytes] at hx
  | [a], x, hx => by
      simp only [b64encodeBytes, List.mem_cons, List.not_mem_nil, or_false] at hx
      rcases hx with rfl | rfl | rfl | rfl
      · exact sixToChar_ne_10 _
      · exact sixToChar_ne_10 _
      · omega
      · omega
  | [a, b], x, hx => by
      simp only [b64encodeBytes, List.mem_cons, List.not_mem_nil, or_false] at hx
      rcases hx with rfl | rfl | rfl | rfl
      · exact sixToChar_ne_10 _
      · exact sixToChar_ne_10 _
      · exact sixToChar_ne_10 _
      · omega
  | a :: b :: c :: rest, x, hx => by
      simp only [b64encodeBytes, List.mem_cons] at hx
      rcases hx with rfl | rfl | rfl | rfl | hmem
      · exact sixToChar_ne_10 _
      · exact sixToChar_ne_10 _
      · exact sixToChar_ne_10 _
      · exact sixToChar_ne_10 _
      · exact b64encode_no_newline rest x hmem

theorem b64encode_filter_newline (l : List Nat) :
    (b64encodeBytes l).filter (fun c => c ≠ 10) = b64encodeBytes l := by
  rw [List.filter_eq_self]
  intro a ha
  simpa using b64encode_no_newline l a ha

theorem pathLt_of_le_of_ne {a b : TreeItem} (hle : pathLe a b)
    (hne : a.path ≠ b.path) : pathLt a b := by
  unfold pathLe at hle
  unfold pathLt
  cases hab : listLt a.path b.path
  · exact absurd (listLt_conn a.path b.path hab hle) hne
  · rfl

theorem parentIdOf_eq_specParentId (pageId : List Nat) :
    parentIdOf pageId = specParentId pageId := by
  unfold parentIdOf specParentId
  match h : splitSlash pageId with
  | [] => simp
  | [x] => simp
  | x :: y :: rest => simp

theorem addChild_pageKey (m : List (List Nat × Page)) (k childId : List Nat) :
    (addChild m k childId).map pageKey = m.map pageKey := by
  unfold addChild
  rw [List.map_map]
  apply List.map_congr_left
  intro kv _
  by_cases h : kv.1 = k <;> simp [pageKey, h]

theorem attachPages_fst_pageKey :
    ∀ (base : List Page) (m : List (List Nat × Page)) (roots : List (List Nat)),
      ((attachPages base (m, roots)).1).map pageKey = m.map pageKey
  | [], _, _ => rfl
  | pg :: rest, m, roots => by
      rcases hpar : pg.parentId with _ | pid
      · simp only [attachPages, hpar]
        exact attachPages_fst_pageKey rest m (roots ++ [pg.id])
      · simp only [attachPages, hpar]
        by_cases hmem : (getPage m pid).isSome
        · simp only [hmem, if_true]
          rw [attachPages_fst_pageKey rest (addChild m pid pg.id) roots,
            addChild_pageKey]
        · simp only [hmem, Bool.false_eq_true, if_false]
          exact attachPages_fst_pageKey rest m roots

theorem attachPages_snd :
    ∀ (base : List Page) (m : List (List Nat × Page)) (roots : List (List Nat)),
      (attachPages base (m, roots)).2 =
        roots ++ (base.filter fun p => p.parentId.isNone).map Page.id
  | [], _, _ => by simp [attachPages]
  | pg :: rest, m, roots => by
      rcases hpar : pg.parentId with _ | pid
      · simp only [attachPages, hpar]
        rw [attachPages_snd rest m (roots ++ [pg.id])]
        simp [List.filter_cons, hpar]
      · simp only [attachPages, hpar]
        by_cases hmem : (getPage m pid).isSome
        · simp only [hmem, if_true]
          rw [attachPages_snd rest (addChild m pid pg.id) roots]
          simp [List.filter_cons, hpar]
        · simp only [hmem, Bool.false_eq_true, if_false]
          rw [attachPages_snd rest m roots]
          simp [List.filter_cons, hpar]

theorem setPage_not_mem (m : List (List Nat × Page)) (k : List Nat) (v : Page)
    (h : k ∉ m.map Prod.fst) : setPage m k v = m ++ [(k, v)] := by
  induction m with
  | nil => rfl
  | cons kv rest ih =>
      simp only [List.map_cons, List.mem_cons] at h
      push_neg at h
      unfold setPage
      rw [if_neg (fun he => h.1 he.symm)]
      rw [ih h.2]
      rfl

theorem foldl_setPage :
    ∀ (base : List Page) (m : List (List Nat × Page)),
      (base.map Page.id).Nodup →
      (∀ p ∈ base, p.id ∉ m.map Prod.fst) →
      base.foldl (fun m pg => setPage m pg.id pg) m =
        m ++ base.map (fun p => (p.id, p))
  | [], m, _, _ => by simp
  | pg :: rest, m, hnd, hdis => by
      simp only [List.map_cons, List.nodup_cons] at hnd
      rw [List.foldl_cons,
        setPage_not_mem m pg.id pg (hdis pg (by simp)),
        foldl_setPage rest (m ++ [(pg.id, pg)]) hnd.2 ?_]
      · simp
      · intro p hp
        simp only [List.map_append, List.mem_append] at *
        push_neg
        constructor
        · exact hdis p (by simp [hp])
        · intro hmem
          simp only [List.map_cons, List.map_nil, List.mem_singleton] at hmem
          exact hnd.1 (hmem ▸ List.mem_map_of_mem Page.id hp)

theorem sortEntries_eq_of_perm (l1 l2 : List TreeItem)
    (h : l1.Perm l2) (hnd : (l1.map TreeItem.path).Nodup) :
    sortEntries l1 = sortEntries l2 := by
  have hp1 : List.Perm (sortEntries l1) l1 := List.perm_insertionSort pathLe l1
  have hp2 : List.Perm (sortEntries l2) l2 := List.perm_insertionSort pathLe l2
  have hp : List.Perm (sortEntries l1) (sortEntries l2) :=
    hp1.trans (h.trans hp2.symm)
  have hs1 : List.Sorted pathLe (sortEntries l1) :=
    List.sorted_insertionSort pathLe l1
  have hs2 : List.Sorted pathLe (sortEntries l2) :=
    List.sorted_insertionSort pathLe l2
  have hnd1 : ((sortEntries l1).map TreeItem.path).Nodup :=
    ((hp1.map TreeItem.path).nodup_iff).mpr hnd
  have hnd2 : ((sortEntries l2).map TreeItem.path).Nodup :=
    ((hp.map TreeItem.path).nodup_iff).mp hnd1
  have hlt1 : List.Sorted pathLt (sortEntries l1) :=
    (hs1.and (List.pairwise_map.mp hnd1)).imp
      fun hab => pathLt_of_le_of_ne hab.1 hab.2
  have hlt2 : List.Sorted pathLt (sortEntries l2) :=
    (hs2.and (List.pairwise_map.mp hnd2)).imp
      fun hab => pathLt_of_le_of_ne hab.1 hab.2
  exact List.eq_of_perm_of_sorted hp hlt1 hlt2

theorem basePages_map_id (items : List TreeItem) :
    (basePages items).map Page.id =
      (sortEntries (items.filter isWikiMd)).map fun e => stripPath e.path := by
  unfold basePages
  rw [List.map_map]
  rfl

theorem basePages_parentId (items : List TreeItem) :
    ∀ p ∈ basePages items, p.parentId = parentIdOf p.id := by
  intro p hp
  unfold basePages at hp
  rcases List.mem_map.mp hp with ⟨e, _, rfl⟩
  rfl

theorem basePages_id_nodup (items : List TreeItem)
    (hnd : ((items.filter isWikiMd).map fun e => stripPath e.path).Nodup) :
    ((basePages items).map Page.id).Nodup := by
  rw [basePages_map_id]
  have hperm : List.Perm (sortEntries (items.filter isWikiMd))
      (items.filter isWikiMd) := List.perm_insertionSort pathLe _
  exact ((hperm.map fun e => stripPath e.path).nodup_iff).mpr hnd

theorem buildWiki_pagesById_pageKey (items : List TreeItem)
    (hnd : ((items.filter isWikiMd).map fun e => stripPath e.path).Nodup) :
    (buildWiki items).pagesById.map pageKey =
      (basePages items).map fun p => (p.id, p.id, p.parentId) := by
  have hids := basePages_id_nodup items hnd
  have hm0 : (basePages items).foldl (fun m pg => setPage m pg.id pg) [] =
      (basePages items).map fun p => (p.id, p) :=
    (foldl_setPage (basePages items) [] hids (by simp)).trans (by simp)
  show ((attachPages (basePages items)
      ((basePages items).foldl (fun m pg => setPage m pg.id pg) [], [])).1).map
        pageKey = _
  rw [attachPages_fst_pageKey, hm0, List.map_map]
  rfl

theorem buildWiki_pages_map_id (items : List TreeItem)
    (hnd : ((items.filter isWikiMd).map fun e => stripPath e.path).Nodup) :
    (buildWiki items).pages.map Page.id = (basePages items).map Page.id := by
  have h := congrArg
    (List.map fun t : List Nat × List Nat × Option (List Nat) => t.2.1)
    (buildWiki_pagesById_pageKey items hnd)
  rw [List.map_map, List.map_map] at h
  unfold WikiData.pages
  rw [List.map_map]
  exact h

theorem buildWiki_pages_map_pair (items : List TreeItem)
    (hnd : ((items.filter isWikiMd).map fun e => stripPath e.path).Nodup) :
    ((buildWiki items).pages.map fun p => (p.id, p.parentId)) =
      (basePages items).map fun p => (p.id, p.parentId) := by
  have h := congrArg
    (List.map fun t : List Nat × List Nat × Option (List Nat) => t.2)
    (buildWiki_pagesById_pageKey items hnd)
  rw [List.map_map, List.map_map] at h
  unfold WikiData.pages
  rw [List.map_map]
  exact h

theorem buildWiki_tree_eq (items : List TreeItem) :
    (buildWiki items).tree =
      ((basePages items).filter fun p => p.parentId.isNone).map Page.id := by
  show (attachPages (basePages items) (_, [])).2 = _
  rw [attachPages_snd]
  simp

theorem filter_parentless_map_id (l : List Page) :
    (l.filter fun p => p.parentId.isNone).map Page.id =
      (l.map fun p => (p.id, p.parentId)).filterMap
        fun t => if t.2.isNone then some t.1 else none := by
  induction l with
  | nil => rfl
  | cons p rest ih =>
      cases hpar : p.parentId <;>
        simp [List.filter_cons, List.filterMap_cons, hpar, ih]

/- ### Claim theorems: page tree -/

/-- C2 counterexample: building the tree from the single path
`content/a/b.md` (page `a/b` whose parent `a` does not exist) leaves the
root list empty — the orphan page is not promoted to a root, although it
stays in the page set; and once `content/a.md` is also present, a rebuild
does attach `a/b` under `a`. -/
theorem buildWiki_orphan_counterexample :
    (buildWiki [⟨jstr "content/a/b.md", jstr "h1"⟩]).tree = []
    ∧ (buildWiki [⟨jstr "content/a/b.md", jstr "h1"⟩]).pages.map Page.id =
        [jstr "a/b"]
    ∧ (buildWiki [⟨jstr "content/a/b.md", jstr "h1"⟩,
        ⟨jstr "content/a.md", jstr "h2"⟩]).tree = [jstr "a"]
    ∧ (getPage (buildWiki [⟨jstr "content/a/b.md", jstr "h1"⟩,
        ⟨jstr "content/a.md", jstr "h2"⟩]).pagesById (jstr "a")).map
          Page.children = some [jstr "a/b"] :=
  ⟨by decide, by decide, by decide, by decide⟩

/-- C2 (amended): a page whose parent identifier does not exist in the page
set is not promoted to a root: the tree's root identifiers are exactly the
parentless pages, so the orphan stays in the page set but appears neither
under a parent nor among the roots; and since every page creation rebuilds
the whole tree from the path list, creating the missing parent later does
attach the page under it on that rebuild. -/
theorem buildWiki_roots_are_parentless (items : List TreeItem)
    (hnd : ((items.filter isWikiMd).map fun e => stripPath e.path).Nodup) :
    (buildWiki items).tree =
        ((buildWiki items).pages.filter fun p => p.parentId.isNone).map Page.id
    ∧ ∀ p ∈ (buildWiki items).pages, p.parentId.isSome →
        p.id ∉ (buildWiki items).tree := by
  have htree : (buildWiki items).tree =
      ((buildWiki items).pages.filter fun p => p.parentId.isNone).map Page.id := by
    rw [buildWiki_tree_eq, filter_parentless_map_id,
      ← buildWiki_pages_map_pair items hnd, ← filter_parentless_map_id]
  refine ⟨htree, ?_⟩
  intro p hp hsome hmem
  rw [htree] at hmem
  rcases List.mem_map.mp hmem with ⟨q, hqf, hqid⟩
  have hq := List.mem_filter.mp hqf
  have hnodup : ((buildWiki items).pages.map Page.id).Nodup := by
    rw [buildWiki_pages_map_id items hnd]
    exact basePages_id_nodup items hnd
  have hpq : q = p := List.inj_on_of_nodup_map hnodup hq.1 hp hqid
  rw [hpq] at hq
  rw [Option.isSome_iff_exists] at hsome
  rcases hsome with ⟨v, hv⟩
  rw [hv] at hq
  simp at hq

/-- Witness for the amended C2 theorem at a concrete listing. -/
theorem buildWiki_roots_are_parentless_witness :
    ((sampleItems.filter isWikiMd).map fun e => stripPath e.path).Nodup
    ∧ ((buildWiki sampleItems).tree =
        ((buildWiki sampleItems).pages.filter fun p =>
          p.parentId.isNone).map Page.id
      ∧ ∀ p ∈ (buildWiki sampleItems).pages, p.parentId.isSome →
          p.id ∉ (buildWiki sampleItems).tree) :=
  ⟨by decide, buildWiki_roots_are_parentless sampleItems (by decide)⟩

/-- C4: `buildWiki` derives identifiers by stripping the content-root prefix
and the `.md` suffix (the produced identifier list is a permutation of the
stripped filtered input paths), derives each parent identifier as all path
segments but the last joined by `/` (none for single-segment identifiers,
stated against the spec-worded `specParentId`), and sorts by path before
construction, so the entire result is invariant under permutations of the
input listing. -/
theorem buildWiki_ids_parents_deterministic (items : List TreeItem)
    (hnd : ((items.filter isWikiMd).map fun e => stripPath e.path).Nodup) :
    List.Perm ((buildWiki items).pages.map Page.id)
        ((items.filter isWikiMd).map fun e => stripPath e.path)
    ∧ (∀ p ∈ (buildWiki items).pages, p.parentId = specParentId p.id)
    ∧ ∀ items' : List TreeItem, List.Perm items items' →
        buildWiki items' = buildWiki items := by
  refine ⟨?_, ?_, ?_⟩
  · rw [buildWiki_pages_map_id items hnd, basePages_map_id]
    exact (List.perm_insertionSort pathLe _).map _
  · intro p hp
    have hpair := buildWiki_pages_map_pair items hnd
    have hmem : (p.id, p.parentId) ∈
        (buildWiki items).pages.map fun p => (p.id, p.parentId) :=
      List.mem_map_of_mem _ hp
    rw [hpair] at hmem
    rcases List.mem_map.mp hmem with ⟨q, hq, hqe⟩
    have h1 : q.id = p.id := congrArg Prod.fst hqe
    have h2 : q.parentId = p.parentId := congrArg Prod.snd hqe
    rw [← h2, basePages_parentId items q hq, h1, parentIdOf_eq_specParentId]
  · intro items' hperm
    have hfil : List.Perm (items'.filter isWikiMd) (items.filter isWikiMd) :=
      (hperm.filter _).symm
    have hnd2 : (((items.filter isWikiMd).map TreeItem.path).map
        stripPath).Nodup := by
      rw [List.map_map]
      exact hnd
    have hpaths : ((items.filter isWikiMd).map TreeItem.path).Nodup :=
      hnd2.of_map
    have hpaths' : ((items'.filter isWikiMd).map TreeItem.path).Nodup :=
      ((hfil.map TreeItem.path).nodup_iff).mpr hpaths
    have hsort := sortEntries_eq_of_perm (items'.filter isWikiMd)
      (items.filter isWikiMd) hfil hpaths'
    show WikiData.mk _ _ = WikiData.mk _ _
    unfold basePages
    rw [hsort]

/-- Witness for the C4 theorem at a concrete listing. -/
theorem buildWiki_ids_parents_deterministic_witness :
    ((sampleItems.filter isWikiMd).map fun e => stripPath e.path).Nodup
    ∧ (List.Perm ((buildWiki sampleItems).pages.map Page.id)
        ((sampleItems.filter isWikiMd).map fun e => stripPath e.path)
      ∧ (∀ p ∈ (buildWiki sampleItems).pages, p.parentId = specParentId p.id)
      ∧ ∀ items' : List TreeItem, List.Perm sampleItems items' →
          buildWiki items' = buildWiki sampleItems) :=
  ⟨by decide, buildWiki_ids_parents_deterministic sampleItems (by decide)⟩

/- ### Claim theorems: base64 round trip -/

/-- C3 counterexample: the multi-byte body `"€"` (code unit 8364) cannot even
be encoded — `btoa` throws, so the save-then-fetch round trip does not return
the text unchanged. -/
theorem saveFetchRoundTrip_multibyte_counterexample :
    btoa (jstr "€") = none
    ∧ saveFetchRoundTrip (jstr "€") ≠ some (jstr "€") :=
  ⟨by decide, by decide⟩

/-- C3 (amended): for printable text all of whose code units are Latin-1
(below 256), saving a body (`btoa` on save) and fetching it back (`atob`
after stripping the newlines of the stored base64) returns the original text
unchanged; text with a code unit above 255 is rejected by the encoder and
never written. -/
theorem saveFetchRoundTrip_latin1 (text : List Nat)
    (h : ∀ c ∈ text, c < 256) : saveFetchRoundTrip text = some text := by
  unfold saveFetchRoundTrip btoa
  rw [if_pos (by simpa using h)]
  show decodeBlobContent (b64encodeBytes text) = some text
  unfold decodeBlobContent
  rw [b64encode_filter_newline]
  exact b64decode_encode text h

/-- Witness for the amended C3 theorem on a concrete Latin-1 body. -/
theorem saveFetchRoundTrip_latin1_witness :
    (∀ c ∈ jstr "# héllo, wiki!", c < 256)
    ∧ saveFetchRoundTrip (jstr "# héllo, wiki!") = some (jstr "# héllo, wiki!") :=
  ⟨by decide, saveFetchRoundTrip_latin1 (jstr "# héllo, wiki!") (by decide)⟩

theorem getPage_setPage_ne (m : List (List Nat × Page)) (k k' : List Nat)
    (v : Page) (h : k' ≠ k) : getPage (setPage m k v) k' = getPage m k' := by
  induction m with
  | nil =>
      simp only [setPage, getPage]
      rw [if_neg fun he => h he.symm]
  | cons kv rest ih =>
      unfold setPage
      by_cases hk : kv.1 = k
      · rw [if_pos hk]
        unfold getPage
        rw [if_neg (fun he => h he.symm), if_neg (by rw [hk]; exact fun he => h he.symm)]
      · rw [if_neg hk]
        unfold getPage
        by_cases hk' : kv.1 = k'
        · rw [if_pos hk', if_pos hk']
        · rw [if_neg hk', if_neg hk']
          exact ih

theorem getKey_setKey_ne {α : Type} (m : List (List Nat × α)) (k k' : List Nat)
    (v : α) (h : k' ≠ k) : getKey (setKey m k v) k' = getKey m k' := by
  induction m with
  | nil =>
      simp only [setKey, getKey]
      rw [if_neg fun he => h he.symm]
  | cons kv rest ih =>
      unfold setKey
      by_cases hk : kv.1 = k
      · rw [if_pos hk]
        unfold getKey
        rw [if_neg (fun he => h he.symm), if_neg (by rw [hk]; exact fun he => h he.symm)]
      · rw [if_neg hk]
        unfold getKey
        by_cases hk' : kv.1 = k'
        · rw [if_pos hk', if_pos hk']
        · rw [if_neg hk', if_neg hk']
          exact ih

theorem setPage_proj {β : Type} (f : Page → β) (m : List (List Nat × Page))
    (k : List Nat) (v page : Page) (hget : getPage m k = some page)
    (hf : f v = f page) :
    (setPage m k v).map (fun kv => (kv.1, f kv.2)) =
      m.map fun kv => (kv.1, f kv.2) := by
  induction m with
  | nil => simp [getPage] at hget
  | cons kv rest ih =>
      unfold getPage at hget
      unfold setPage
      by_cases hk : kv.1 = k
      · rw [if_pos hk] at hget ⊢
        simp only [List.map_cons]
        injection hget with hvp
        rw [hf, hvp, hk]
      · rw [if_neg hk] at hget ⊢
        simp only [List.map_cons]
        rw [ih hget]

/- ### Claim theorems: cache, drafts -/

/-- C5: a snapshot cached at time `T` is served at every query time `t` with
`T ≤ t < T + 24h` and treated as absent at every `t ≥ T + 24h`: the cache
has a fixed 24-hour validity window measured from cache-write time. -/
theorem getCachedActivities_window {α : Type} (data : α) (T t : Nat)
    (hT : T ≤ t) :
    (t < T + 24 * (1000 * 60 * 60) →
        getCachedActivities (setCachedActivities data T) t = some data)
    ∧ (T + 24 * (1000 * 60 * 60) ≤ t →
        getCachedActivities (setCachedActivities data T) t = none) := by
  constructor
  · intro h
    show (if (t - T) / (1000 * 60 * 60) < 24 then some data else none) = some data
    rw [if_pos (by omega)]
  · intro h
    show (if (t - T) / (1000 * 60 * 60) < 24 then some data else none) = none
    rw [if_neg (by omega)]

/-- Witness for the cache-window theorem: cached at 0, present at 23h. -/
theorem getCachedActivities_window_witness :
    (0 : Nat) ≤ 82800000
    ∧ ((82800000 < 0 + 24 * (1000 * 60 * 60) →
        getCachedActivities (setCachedActivities (7 : Nat) 0) 82800000 = some 7)
      ∧ (0 + 24 * (1000 * 60 * 60) ≤ 82800000 →
        getCachedActivities (setCachedActivities (7 : Nat) 0) 82800000 = none)) :=
  ⟨by decide, getCachedActivities_window 7 0 82800000 (by decide)⟩

/-- C9: `clearDraft` is idempotent — on every draft-store state, clearing the
same identifier twice leaves the store exactly as clearing it once (and, the
model being a total function, the second call raises no error). -/
theorem clearDraft_idempotent (pageId : List Nat)
    (store : List (List Nat × DraftRec)) :
    clearDraft pageId (clearDraft pageId store) = clearDraft pageId store := by
  unfold clearDraft
  induction store with
  | nil => rfl
  | cons kv rest ih =>
      by_cases h : kv.1 = pageId
      · simp [List.filter_cons, h, ih]
      · simp [List.filter_cons, h, ih]

theorem saveEditBody_promptShown (st : AppState) (c : List Nat) (env : SaveEnv)
    (p : Bool) : (saveEditBody st c env p).promptShown = p := by
  unfold saveEditBody catchResult
  dsimp only
  repeat' split
  all_goals rfl

/- ### Claim theorems: the edit session -/

/-- C6: a save attempt whose body is empty or whitespace-only is blocked
before any network call: the error status is shown, no remote request is
issued, no confirm dialog is raised, and the whole session state (drafts
included) is unchanged. -/
theorem saveEdit_empty_blocked (st : AppState) (confirmAns : Bool)
    (env : SaveEnv) (hempty : jsTrim st.editorContent = []) :
    saveEdit st confirmAns env =
      { state := st
        statuses := [(jstr "Page cannot be empty", errKind)]
        promptShown := false
        calls := []
        crashed := false } := by
  unfold saveEdit
  rw [if_pos hempty]

/-- Witness for the empty-body theorem on a whitespace-only editor. -/
theorem saveEdit_empty_blocked_witness :
    jsTrim (jstr "  \n ") = []
    ∧ saveEdit { baseSession with editorContent := jstr "  \n " } true okEnv =
      { state := { baseSession with editorContent := jstr "  \n " }
        statuses := [(jstr "Page cannot be empty", errKind)]
        promptShown := false
        calls := []
        crashed := false } :=
  ⟨by decide, saveEdit_empty_blocked
    { baseSession with editorContent := jstr "  \n " } true okEnv (by decide)⟩

/-- C1: on an existing page, when the hash captured at edit start differs
from the page's latest known remote hash, the write is issued only when the
confirm dialog was raised and answered yes; when the user declines, no
remote request at all is issued and the session state is unchanged. -/
theorem saveEdit_conflict_confirm_gate (st : AppState) (confirmAns : Bool)
    (env : SaveEnv) (cp : List Nat) (page : Page) (h0 : List Nat)
    (_hedit : st.isEditMode = true)
    (hcp : st.currentPage = some cp)
    (hpg : getPage st.pagesById cp = some page)
    (hnew : st.isNewPage = false)
    (hsha : st.editStartSha = some h0)
    (hdiff : some h0 ≠ page.sha) :
    ((saveEdit st confirmAns env).calls.any isPutCall = true →
        (saveEdit st confirmAns env).promptShown = true ∧ confirmAns = true)
    ∧ (confirmAns = false →
        (saveEdit st confirmAns env).calls = []
        ∧ (saveEdit st confirmAns env).state = st) := by
  by_cases he : jsTrim st.editorContent = []
  · have hres : saveEdit st confirmAns env =
        { state := st
          statuses := [(jstr "Page cannot be empty", errKind)]
          promptShown := false
          calls := []
          crashed := false } := by
      unfold saveEdit
      rw [if_pos he]
    rw [hres]
    exact ⟨fun hput => by simp at hput, fun _ => ⟨rfl, rfl⟩⟩
  · have hguard : saveEdit st confirmAns env =
        if confirmAns then saveEditBody st st.editorContent env true
        else
          { state := st, statuses := [], promptShown := true, calls := [],
            crashed := false } := by
      unfold saveEdit
      rw [if_neg he, hsha, hcp, Option.some_bind, hpg]
      dsimp only
      rw [if_pos ⟨hdiff, hnew⟩]
    cases confirmAns with
    | false =>
        rw [hguard]
        simp only [Bool.false_eq_true, if_false]
        refine ⟨fun hput => by simp at hput, fun _ => ?_⟩
        constructor <;> trivial
    | true =>
        rw [hguard]
        simp only [if_true]
        refine ⟨fun _ => ?_, fun hfalse => by simp at hfalse⟩
        refine ⟨saveEditBody_promptShown st st.editorContent env true, ?_⟩
        trivial

/-- Witness for the confirm gate: a declined overwrite leaves the session
untouched and issues nothing. -/
theorem saveEdit_conflict_confirm_gate_witness :
    (staleSession.isEditMode = true
      ∧ staleSession.currentPage = some (jstr "home")
      ∧ getPage staleSession.pagesById (jstr "home") = some homePage
      ∧ staleSession.isNewPage = false
      ∧ staleSession.editStartSha = some (jstr "sha0")
      ∧ some (jstr "sha0") ≠ homePage.sha)
    ∧ (((saveEdit staleSession false okEnv).calls.any isPutCall = true →
          (saveEdit staleSession false okEnv).promptShown = true
            ∧ false = true)
      ∧ (false = false →
          (saveEdit staleSession false okEnv).calls = []
            ∧ (saveEdit staleSession false okEnv).state = staleSession)) := by
  refine ⟨⟨rfl, rfl, by decide, rfl, rfl, by decide⟩, ?_⟩
  exact saveEdit_conflict_confirm_gate staleSession false okEnv (jstr "home")
    homePage (jstr "sha0") rfl rfl (by decide) rfl rfl (by decide)

/-- C7 counterexample: an auth failure (HTTP 401) thrown during a save does
not terminate the session — `saveEdit` surfaces the generic failure status
and leaves the whole state, the token included, unchanged; no logout happens
(an actual `logout` would clear the token). -/
theorem saveEdit_auth_error_counterexample :
    (saveEdit baseSession true authFailEnv).state = baseSession
    ∧ baseSession.githubToken = some (jstr "tok")
    ∧ (logout baseSession).githubToken = none
    ∧ (saveEdit baseSession true authFailEnv).statuses =
        [(jstr "Saving to GitHub...", successKind),
          (jstr "Failed to save: GitHub API error: 401", errKind)] :=
  ⟨by decide, by decide, by decide, by decide⟩

/-- C7 (amended): every error thrown while saving an existing page —
conflict, auth or network alike — is caught and surfaced as a status
message while the session state (token, edit-mode flag, drafts, everything)
is left unchanged; a message containing `409` yields the specific
reload-and-retry hint, any other error the generic failure text; no error
forces a logout. -/
theorem saveEdit_error_preserves_session (st : AppState) (env : SaveEnv)
    (msg : List Nat) (cp : List Nat) (page : Page)
    (he : jsTrim st.editorContent ≠ [])
    (hnew : st.isNewPage = false)
    (hnochange : st.editorContent ≠ st.originalMarkdown)
    (hcp : st.currentPage = some cp)
    (hpg : getPage st.pagesById cp = some page)
    (herr : env.getShaResult = Except.error msg
      ∨ ∃ sha enc, env.getShaResult = Except.ok sha
          ∧ btoa st.editorContent = some enc ∧ env.putResult = some msg) :
    (saveEdit st true env).state = st
    ∧ (saveEdit st true env).state.githubToken = st.githubToken
    ∧ (saveEdit st true env).state.isEditMode = st.isEditMode
    ∧ (saveEdit st true env).statuses =
        [(jstr "Saving to GitHub...", successKind),
          (saveErrorStatus msg, errKind)] := by
  have hbody : ∃ p, saveEdit st true env =
      saveEditBody st st.editorContent env p := by
    unfold saveEdit
    rw [if_neg he]
    match hes : st.editStartSha with
    | none => exact ⟨false, rfl⟩
    | some h0 =>
        rw [hcp, Option.some_bind, hpg]
        dsimp only
        by_cases hg : some h0 ≠ page.sha ∧ st.isNewPage = false
        · rw [if_pos hg]
          exact ⟨true, by simp⟩
        · rw [if_neg hg]
          exact ⟨false, rfl⟩
  rcases hbody with ⟨p, hp2⟩
  have hbody2 : ∃ calls, saveEditBody st st.editorContent env p =
      catchResult st p calls msg := by
    unfold saveEditBody
    rw [hnew]
    simp only [Bool.false_eq_true, if_false]
    rw [if_neg hnochange]
    rcases herr with herrL | ⟨sha, enc, hok, hbt, hput⟩
    · rw [herrL]
      exact ⟨_, rfl⟩
    · rw [hok, hbt, hput]
      exact ⟨_, rfl⟩
  rcases hbody2 with ⟨calls, hcr⟩
  rw [hp2, hcr]
  exact ⟨rfl, rfl, rfl, rfl⟩

/-- Witness for the amended C7 theorem: a 409 conflict surfaces the retry
hint with the session preserved. -/
theorem saveEdit_error_preserves_session_witness :
    (jsTrim baseSession.editorContent ≠ []
      ∧ baseSession.isNewPage = false
      ∧ baseSession.editorContent ≠ baseSession.originalMarkdown
      ∧ baseSession.currentPage = some (jstr "home")
      ∧ getPage baseSession.pagesById (jstr "home") = some homePage
      ∧ (conflictEnv.getShaResult =
            Except.error (jstr "GitHub API error: 409")
        ∨ ∃ sha enc, conflictEnv.getShaResult = Except.ok sha
            ∧ btoa baseSession.editorContent = some enc
            ∧ conflictEnv.putResult = some (jstr "GitHub API error: 409")))
    ∧ ((saveEdit baseSession true conflictEnv).state = baseSession
      ∧ (saveEdit baseSession true conflictEnv).state.githubToken =
          baseSession.githubToken
      ∧ (saveEdit baseSession true conflictEnv).state.isEditMode =
          baseSession.isEditMode
      ∧ (saveEdit baseSession true conflictEnv).statuses =
          [(jstr "Saving to GitHub...", successKind),
            (saveErrorStatus (jstr "GitHub API error: 409"), errKind)]) := by
  refine ⟨⟨by decide, rfl, by decide, rfl, by decide, Or.inl rfl⟩, ?_⟩
  exact saveEdit_error_preserves_session baseSession conflictEnv
    (jstr "GitHub API error: 409") (jstr "home") homePage (by decide) rfl
    (by decide) rfl (by decide) (Or.inl rfl)

/-- C10: when the current page has children, both `deletePage` and
`startMoveMode` refuse: they show the error status, raise no confirm dialog,
issue no remote request, and leave the state unchanged. -/
theorem deleteMove_children_guard (st : AppState) (confirmAns : Bool)
    (env : DeleteEnv) (cp : List Nat) (page : Page)
    (hcp : st.currentPage = some cp)
    (hpg : getPage st.pagesById cp = some page)
    (hch : page.children ≠ []) :
    deletePage st confirmAns env =
      { state := st
        statuses :=
          [(jstr "Cannot delete pages with children. Delete children first.",
            errKind)]
        promptShown := false
        calls := []
        crashed := false }
    ∧ startMoveMode st =
        (st, [(jstr "Cannot move pages with children. Use Git.", errKind)],
          false) := by
  constructor
  · unfold deletePage
    rw [hcp]
    dsimp only
    rw [hpg]
    dsimp only
    rw [if_pos hch]
  · unfold startMoveMode
    rw [hcp]
    dsimp only
    rw [hpg]
    dsimp only
    rw [if_pos hch]

/-- Witness for the children guard at a page with one child. -/
theorem deleteMove_children_guard_witness :
    (parentSession.currentPage = some (jstr "a")
      ∧ getPage parentSession.pagesById (jstr "a") = some parentPage
      ∧ parentPage.children ≠ [])
    ∧ (deletePage parentSession true okDeleteEnv =
        { state := parentSession
          statuses :=
            [(jstr "Cannot delete pages with children. Delete children first.",
              errKind)]
          promptShown := false
          calls := []
          crashed := false }
      ∧ startMoveMode parentSession =
          (parentSession,
            [(jstr "Cannot move pages with children. Use Git.", errKind)],
            false)) := by
  refine ⟨⟨rfl, by decide, by decide⟩, ?_⟩
  exact deleteMove_children_guard parentSession true okDeleteEnv (jstr "a")
    parentPage rfl (by decide) (by decide)

/-- C8: the focus-triggered remote-hash check mutates only the cached hash
values for the current page (the page's stored sha and the
last-known-remote-sha map): every page's markdown, the editor content, the
edit-mode flag, the drafts, the token, the current page, the tree and the
edit-start hash are unchanged, all other pages' entries are untouched, and a
detected change surfaces only as the returned warning. -/
theorem syncCurrentPage_frame (st : AppState) (remoteSha : Option (List Nat)) :
    ((syncCurrentPageWithRemote st remoteSha).1.pagesById.map fun kv =>
        (kv.1, kv.2.markdown)) =
      (st.pagesById.map fun kv => (kv.1, kv.2.markdown))
    ∧ (syncCurrentPageWithRemote st remoteSha).1.editorContent =
        st.editorContent
    ∧ (syncCurrentPageWithRemote st remoteSha).1.isEditMode = st.isEditMode
    ∧ (syncCurrentPageWithRemote st remoteSha).1.originalMarkdown =
        st.originalMarkdown
    ∧ (syncCurrentPageWithRemote st remoteSha).1.drafts = st.drafts
    ∧ (syncCurrentPageWithRemote st remoteSha).1.githubToken = st.githubToken
    ∧ (syncCurrentPageWithRemote st remoteSha).1.currentPage = st.currentPage
    ∧ (syncCurrentPageWithRemote st remoteSha).1.tree = st.tree
    ∧ (syncCurrentPageWithRemote st remoteSha).1.editStartSha = st.editStartSha
    ∧ ∀ k, st.currentPage ≠ some k →
        getPage (syncCurrentPageWithRemote st remoteSha).1.pagesById k =
            getPage st.pagesById k
          ∧ getKey (syncCurrentPageWithRemote st remoteSha).1.lastKnownRemoteSha
              k = getKey st.lastKnownRemoteSha k := by
  rcases hc : st.currentPage with _ | cp
  · have hres : syncCurrentPageWithRemote st remoteSha = (st, none) := by
      simp only [syncCurrentPageWithRemote, hc]
    rw [hres]
    exact ⟨rfl, rfl, rfl, rfl, rfl, rfl, hc, rfl, rfl, fun k _ => ⟨rfl, rfl⟩⟩
  · rcases ht : st.githubToken with _ | tok
    · have hres : syncCurrentPageWithRemote st remoteSha = (st, none) := by
        simp only [syncCurrentPageWithRemote, hc, ht]
      rw [hres]
      exact ⟨rfl, rfl, rfl, rfl, rfl, ht, hc, rfl, rfl, fun k _ => ⟨rfl, rfl⟩⟩
    · rcases remoteSha with _ | rsha
      · have hres : syncCurrentPageWithRemote st none = (st, none) := by
          simp only [syncCurrentPageWithRemote, hc, ht]
        rw [hres]
        exact ⟨rfl, rfl, rfl, rfl, rfl, ht, hc, rfl, rfl, fun k _ => ⟨rfl, rfl⟩⟩
      · rcases hp : getPage st.pagesById cp with _ | page
        · have hres : syncCurrentPageWithRemote st (some rsha) = (st, none) := by
            simp only [syncCurrentPageWithRemote, hc, ht, hp]
          rw [hres]
          exact ⟨rfl, rfl, rfl, rfl, rfl, ht, hc, rfl, rfl, fun k _ => ⟨rfl, rfl⟩⟩
        · by_cases hcond : getKey st.lastKnownRemoteSha cp ≠ some rsha
              ∧ page.sha ≠ some rsha
          · have hres1 : (syncCurrentPageWithRemote st (some rsha)).1 =
                { st with
                    lastKnownRemoteSha := setKey st.lastKnownRemoteSha cp rsha
                    pagesById :=
                      setPage st.pagesById cp { page with sha := some rsha } } := by
              simp only [syncCurrentPageWithRemote, hc, ht, hp, if_pos hcond]
            rw [hres1]
            refine ⟨?_, rfl, rfl, rfl, rfl, ht, hc, rfl, rfl, ?_⟩
            · exact setPage_proj Page.markdown st.pagesById cp _ page hp rfl
            · intro k hk
              have hne : k ≠ cp := fun heq => hk (by rw [heq])
              exact ⟨getPage_setPage_ne st.pagesById cp k _ hne,
                getKey_setKey_ne st.lastKnownRemoteSha cp k rsha hne⟩
          · have hres : syncCurrentPageWithRemote st (some rsha) = (st, none) := by
              simp only [syncCurrentPageWithRemote, hc, ht, hp, if_neg hcond]
            rw [hres]
            exact ⟨rfl, rfl, rfl, rfl, rfl, ht, hc, rfl, rfl,
              fun k _ => ⟨rfl, rfl⟩⟩

end Wiki
